import Mathlib

/-!
Shallow embedding of the lil-http HTTP server (src/src/http/request.rs,
src/src/http/response.rs, src/src/router.rs) and proofs about its
request parser, response builder/serializer and router dispatch.

Byte buffers are modelled as List Nat (each element a byte value),
Rust HashMap values as association lists with insert-replace semantics,
and Rust panics as an explicit outcome constructor, so that fallible
paths (Err results) and aborting paths (todo!/unwrap/slice panics) stay
distinguishable in the model.
-/

set_option maxRecDepth 100000
set_option maxHeartbeats 1000000

/-- Whitespace test used by Rust str::trim, restricted to the ASCII
whitespace characters (the only ones the development exercises). -/
def isRustWs (c : Char) : Bool :=
  c = ' ' || c = '\t' || c = '\n' || c = '\r' || c = Char.ofNat 11 || c = Char.ofNat 12

/-- Model of Rust str::trim on a character list: drop whitespace from
both ends. -/
def trimChars (cs : List Char) : List Char :=
  ((cs.dropWhile isRustWs).reverse.dropWhile isRustWs).reverse

/-- Model of Rust slice/str split on a single separator element: a list
with n separators yields n+1 (possibly empty) pieces. -/
def splitOnElem {α : Type} [DecidableEq α] (sep : α) : List α → List (List α)
  | [] => [[]]
  | x :: xs =>
    match splitOnElem sep xs with
    | [] => [[]]
    | y :: ys => if x = sep then [] :: y :: ys else (x :: y) :: ys

/-- Model of Rust splitn(2, sep): the piece before the first separator,
and (when a separator occurs) the whole remainder after it. -/
def splitFirst {α : Type} [DecidableEq α] (sep : α) : List α → List α × Option (List α)
  | [] => ([], none)
  | x :: xs =>
    if x = sep then ([], some xs)
    else
      let (pre, rest) := splitFirst sep xs
      (x :: pre, rest)

/-- Replacement character U+FFFD emitted by lossy UTF-8 decoding. -/
def replacementChar : Char := Char.ofNat 0xFFFD

/-- Predicate for UTF-8 continuation bytes (0x80..=0xBF). -/
def isCont (b : Nat) : Bool := 0x80 ≤ b && b ≤ 0xBF

/-- Model of Rust String::from_utf8_lossy, fuel-indexed: ASCII bytes
decode to themselves, well-formed multi-byte sequences decode to their
scalar value, and invalid bytes become U+FFFD. -/
def utf8LossyGo : Nat → List Nat → List Char
  | 0, _ => []
  | _, [] => []
  | fuel + 1, b :: rest =>
    if b < 0x80 then Char.ofNat b :: utf8LossyGo fuel rest
    else if 0xC2 ≤ b && b ≤ 0xDF then
      match rest with
      | b2 :: rest2 =>
        if isCont b2 then
          Char.ofNat ((b - 0xC0) * 0x40 + (b2 - 0x80)) :: utf8LossyGo fuel rest2
        else replacementChar :: utf8LossyGo fuel rest
      | [] => [replacementChar]
    else if 0xE0 ≤ b && b ≤ 0xEF then
      match rest with
      | b2 :: b3 :: rest3 =>
        if (if b = 0xE0 then 0xA0 ≤ b2 && b2 ≤ 0xBF
            else if b = 0xED then 0x80 ≤ b2 && b2 ≤ 0x9F
            else isCont b2) then
          if isCont b3 then
            Char.ofNat ((b - 0xE0) * 0x1000 + (b2 - 0x80) * 0x40 + (b3 - 0x80)) ::
              utf8LossyGo fuel rest3
          else replacementChar :: utf8LossyGo fuel (b3 :: rest3)
        else replacementChar :: utf8LossyGo fuel rest
      | [b2] =>
        if (if b = 0xE0 then 0xA0 ≤ b2 && b2 ≤ 0xBF
            else if b = 0xED then 0x80 ≤ b2 && b2 ≤ 0x9F
            else isCont b2) then [replacementChar]
        else replacementChar :: utf8LossyGo fuel [b2]
      | [] => [replacementChar]
    else if 0xF0 ≤ b && b ≤ 0xF4 then
      match rest with
      | b2 :: rest2 =>
        if (if b = 0xF0 then 0x90 ≤ b2 && b2 ≤ 0xBF
            else if b = 0xF4 then 0x80 ≤ b2 && b2 ≤ 0x8F
            else isCont b2) then
          match rest2 with
          | b3 :: b4 :: rest4 =>
            if isCont b3 then
              if isCont b4 then
                Char.ofNat ((b - 0xF0) * 0x40000 + (b2 - 0x80) * 0x1000 +
                    (b3 - 0x80) * 0x40 + (b4 - 0x80)) :: utf8LossyGo fuel rest4
              else replacementChar :: utf8LossyGo fuel (b4 :: rest4)
            else replacementChar :: utf8LossyGo fuel rest2
          | [b3] =>
            if isCont b3 then [replacementChar]
            else replacementChar :: utf8LossyGo fuel [b3]
          | [] => [replacementChar]
        else replacementChar :: utf8LossyGo fuel rest
      | [] => [replacementChar]
    else replacementChar :: utf8LossyGo fuel rest

/-- Lossy UTF-8 decoding of a byte list to characters. -/
def fromUtf8Lossy (bs : List Nat) : List Char := utf8LossyGo bs.length bs

/-- Decode bytes lossily and pack into a String (Rust
String::from_utf8_lossy(..).to_string()). -/
def strOfBytes (bs : List Nat) : String := String.mk (fromUtf8Lossy bs)

/-- Model of Rust str::parse::<usize>(): an optional leading plus sign,
then one or more ASCII digits, rejecting values at or above 2^64. -/
def parseUsize (s : String) : Option Nat :=
  let cs := match s.data with
    | '+' :: rest => rest
    | cs => cs
  if cs = [] then none
  else if cs.all Char.isDigit then
    let v := cs.foldl (fun acc c => acc * 10 + (c.toNat - 48)) 0
    if v < 2 ^ 64 then some v else none
  else none

/-- Association-list model of HashMap::insert: replace the value when
the key is already bound, append the pair otherwise. -/
def insertAssoc {β : Type} (m : List (String × β)) (k : String) (v : β) :
    List (String × β) :=
  if m.any (fun p => p.1 = k) then
    m.map (fun p => if p.1 = k then (k, v) else p)
  else m ++ [(k, v)]

/-- Model of serde_json::Value: a JSON document. Numbers keep their
source lexeme, which is all the development ever needs of them. -/
inductive Json where
  | null : Json
  | bool (b : Bool) : Json
  | num (lexeme : String) : Json
  | str (s : String) : Json
  | arr (elements : List Json) : Json
  | obj (fields : List (String × Json)) : Json

/-- JSON insignificant whitespace skipping (space, tab, LF, CR). -/
def jsonSkipWs (cs : List Char) : List Char :=
  cs.dropWhile (fun c => c = ' ' || c = '\t' || c = '\n' || c = '\r')

/-- Value of one hexadecimal digit character. -/
def hexVal (c : Char) : Option Nat :=
  if c.isDigit then some (c.toNat - 48)
  else if 'a' ≤ c ∧ c ≤ 'f' then some (c.toNat - 87)
  else if 'A' ≤ c ∧ c ≤ 'F' then some (c.toNat - 55)
  else none

/-- Value of a four-hex-digit escape. -/
def hex4 (a b c d : Char) : Option Nat :=
  match hexVal a, hexVal b, hexVal c, hexVal d with
  | some x, some y, some z, some w => some (((x * 16 + y) * 16 + z) * 16 + w)
  | _, _, _, _ => none

/-- JSON string-body scanner (after the opening quote): handles the
standard escapes and surrogate pairs, rejects raw control characters. -/
def jsonStringGo : Nat → List Char → List Char → Option (List Char × List Char)
  | 0, _, _ => none
  | fuel + 1, cs, acc =>
    match cs with
    | [] => none
    | c :: rest =>
      if c = '"' then some (acc.reverse, rest)
      else if c = '\\' then
        match rest with
        | [] => none
        | e :: rest2 =>
          if e = '"' ∨ e = '\\' ∨ e = '/' then jsonStringGo fuel rest2 (e :: acc)
          else if e = 'b' then jsonStringGo fuel rest2 (Char.ofNat 8 :: acc)
          else if e = 'f' then jsonStringGo fuel rest2 (Char.ofNat 12 :: acc)
          else if e = 'n' then jsonStringGo fuel rest2 ('\n' :: acc)
          else if e = 'r' then jsonStringGo fuel rest2 ('\r' :: acc)
          else if e = 't' then jsonStringGo fuel rest2 ('\t' :: acc)
          else if e = 'u' then
            match rest2 with
            | h1 :: h2 :: h3 :: h4 :: rest6 =>
              match hex4 h1 h2 h3 h4 with
              | none => none
              | some n =>
                if 0xD800 ≤ n ∧ n ≤ 0xDBFF then
                  match rest6 with
                  | '\\' :: 'u' :: g1 :: g2 :: g3 :: g4 :: rest12 =>
                    match hex4 g1 g2 g3 g4 with
                    | some m =>
                      if 0xDC00 ≤ m ∧ m ≤ 0xDFFF then
                        jsonStringGo fuel rest12
                          (Char.ofNat (0x10000 + (n - 0xD800) * 0x400 + (m - 0xDC00)) :: acc)
                      else none
                    | none => none
                  | _ => none
                else if 0xDC00 ≤ n ∧ n ≤ 0xDFFF then none
                else jsonStringGo fuel rest6 (Char.ofNat n :: acc)
            | _ => none
          else none
      else if c.toNat < 0x20 then none
      else jsonStringGo fuel rest (c :: acc)

/-- Longest digit prefix of a character list, with the remainder. -/
def takeDigits (cs : List Char) : List Char × List Char :=
  (cs.takeWhile Char.isDigit, cs.dropWhile Char.isDigit)

/-- Optional fraction and exponent parts of a JSON number, appended to
the lexeme accumulated so far. -/
def jsonNumFracExp (lex : List Char) (cs : List Char) : Option (List Char × List Char) :=
  let step1 : Option (List Char × List Char) :=
    match cs with
    | '.' :: r =>
      let (ds, r2) := takeDigits r
      if ds = [] then none else some (lex ++ '.' :: ds, r2)
    | _ => some (lex, cs)
  match step1 with
  | none => none
  | some (lex2, cs2) =>
    match cs2 with
    | c :: r =>
      if c = 'e' ∨ c = 'E' then
        let (sign, r1) : List Char × List Char :=
          match r with
          | s :: rr => if s = '+' ∨ s = '-' then ([s], rr) else ([], r)
          | [] => ([], r)
        let (ds, r3) := takeDigits r1
        if ds = [] then none else some (lex2 ++ c :: (sign ++ ds), r3)
      else some (lex2, cs2)
    | [] => some (lex2, cs2)

/-- JSON number lexer: optional minus, integer part with no leading
zeros, optional fraction and exponent. Returns lexeme and remainder. -/
def jsonNumber (cs : List Char) : Option (List Char × List Char) :=
  let (minus, cs1) : List Char × List Char :=
    match cs with
    | '-' :: r => (['-'], r)
    | _ => ([], cs)
  match cs1 with
  | [] => none
  | c :: r =>
    if c = '0' then jsonNumFracExp (minus ++ ['0']) r
    else if c.isDigit then
      let (ds, r2) := takeDigits r
      jsonNumFracExp (minus ++ c :: ds) r2
    else none

mutual

/-- Fuel-indexed recursive-descent parser for one JSON value, modelling
serde_json's grammar. -/
def jsonValue : Nat → List Char → Option (Json × List Char)
  | 0, _ => none
  | fuel + 1, cs =>
    match jsonSkipWs cs with
    | 'n' :: 'u' :: 'l' :: 'l' :: rest => some (.null, rest)
    | 't' :: 'r' :: 'u' :: 'e' :: rest => some (.bool true, rest)
    | 'f' :: 'a' :: 'l' :: 's' :: 'e' :: rest => some (.bool false, rest)
    | '"' :: rest =>
      (jsonStringGo (rest.length + 1) rest []).map (fun p => (.str (String.mk p.1), p.2))
    | '[' :: rest =>
      match jsonSkipWs rest with
      | ']' :: rest2 => some (.arr [], rest2)
      | rest2 => (jsonItems fuel rest2).map (fun p => (.arr p.1, p.2))
    | c :: rest =>
      if c = Char.ofNat 0x7b then
        match jsonSkipWs rest with
        | d :: rest2 =>
          if d = Char.ofNat 0x7d then some (.obj [], rest2)
          else (jsonMembers fuel (d :: rest2)).map (fun p => (.obj p.1, p.2))
        | [] => none
      else
        (jsonNumber (c :: rest)).map (fun p => (.num (String.mk p.1), p.2))
    | [] => none

/-- Comma-separated JSON array items up to the closing bracket. -/
def jsonItems : Nat → List Char → Option (List Json × List Char)
  | 0, _ => none
  | fuel + 1, cs =>
    match jsonValue fuel cs with
    | none => none
    | some (v, rest) =>
      match jsonSkipWs rest with
      | ',' :: rest2 => (jsonItems fuel rest2).map (fun p => (v :: p.1, p.2))
      | ']' :: rest2 => some ([v], rest2)
      | _ => none

/-- Comma-separated JSON object members up to the closing brace. -/
def jsonMembers : Nat → List Char → Option (List (String × Json) × List Char)
  | 0, _ => none
  | fuel + 1, cs =>
    match jsonSkipWs cs with
    | '"' :: rest =>
      match jsonStringGo (rest.length + 1) rest [] with
      | none => none
      | some (key, rest2) =>
        match jsonSkipWs rest2 with
        | ':' :: rest3 =>
          match jsonValue fuel rest3 with
          | none => none
          | some (v, rest4) =>
            match jsonSkipWs rest4 with
            | ',' :: rest5 =>
              (jsonMembers fuel rest5).map (fun p => ((String.mk key, v) :: p.1, p.2))
            | d :: rest5 =>
              if d = Char.ofNat 0x7d then some ([(String.mk key, v)], rest5) else none
            | [] => none
        | _ => none
    | _ => none

end

/-- Model of serde_json::from_str: parse exactly one JSON document,
allowing surrounding whitespace only. -/
def jsonFromStr (s : String) : Option Json :=
  match jsonValue (2 * s.data.length + 2) s.data with
  | none => none
  | some (v, rest) => if jsonSkipWs rest = [] then some v else none

/-- HTTP method enumeration from src/src/http/request.rs. -/
inductive Method where
  | head : Method
  | get : Method
  | post : Method
  | put : Method
  | delete : Method
  deriving DecidableEq

/-- Model of the From<String> impl for Method: the recognized uppercase
tokens map to their variant; any other token hits todo!() in the source,
modelled here as none. -/
def Method.fromString (s : String) : Option Method :=
  if s = "HEAD" then some .head
  else if s = "GET" then some .get
  else if s = "POST" then some .post
  else if s = "PUT" then some .put
  else if s = "DELETE" then some .delete
  else none

/-- Display impl for Method: the canonical uppercase name. -/
def Method.toString : Method → String
  | .head => "HEAD"
  | .get => "GET"
  | .post => "POST"
  | .put => "PUT"
  | .delete => "DELETE"

/-- HTTP body from src/src/http/request.rs. -/
inductive Body where
  | none : Body
  | text (s : String) : Body
  | json (v : Json) : Body

/-- HTTP request from src/src/http/request.rs. -/
structure Request where
  method : Method
  path : String
  query : List (String × String)
  headers : List (String × String)
  body : Body

/-- Outcome of Request::try_from: a parsed request, an Err result, or a
Rust panic (todo!, unwrap, or out-of-range slice). -/
inductive ParseOutcome where
  | ok (req : Request) : ParseOutcome
  | err (msg : String) : ParseOutcome
  | panicked (msg : String) : ParseOutcome

/-- Model of Body::parse from src/src/http/request.rs: with content type
application/json the body is parsed with serde_json and the result
unwrapped — a malformed body is a panic, not an Err; any other or
missing content type yields a text body. -/
def Body.parse (body : String) (contentType : Option String) : Except ParseOutcome Body :=
  match contentType with
  | some ct =>
    if ct = "application/json" then
      match jsonFromStr body with
      | some v => .ok (.json v)
      | Option.none => .error (.panicked "called Result::unwrap on an Err value: serde_json error")
    else .ok (.text body)
  | Option.none => .ok (.text body)

/-- Model of the per-pair closure in Request::try_from query parsing:
split the pair on every equals sign, unwrap the first piece as the key
and the second as the value (a pair with no equals sign is a panic),
trimming both. -/
def pairToKV (pair : List Char) : Except ParseOutcome (String × String) :=
  match splitOnElem '=' pair with
  | [] => .error (.panicked "unreachable: str split is never empty")
  | key :: rest =>
    match rest.head? with
    | Option.none => .error (.panicked "called Option::unwrap on a None value")
    | some value => .ok (String.mk (trimChars key), String.mk (trimChars value))

/-- Collect the parsed query pairs into the HashMap model, in order, so
that a later occurrence of a key overwrites an earlier one. -/
def collectKVs : List (List Char) → List (String × String) →
    Except ParseOutcome (List (String × String))
  | [], acc => .ok acc
  | p :: rest, acc =>
    match pairToKV p with
    | .error o => .error o
    | .ok kv => collectKVs rest (insertAssoc acc kv.1 kv.2)

/-- Model of the query branch of Request::try_from: trim the query
string, split it on ampersands and collect the pairs. -/
def parseQuery (q : List Char) : Except ParseOutcome (List (String × String)) :=
  collectKVs (splitOnElem '&' (trimChars q)) []

/-- Model of the header loop of Request::try_from: consume lines until a
bare carriage-return line (or the end of the line iterator), splitting
each consumed line on the first colon (a line with no colon is an unwrap
panic), trimming name and value, inserting into the header map and
adding the line length plus one to the running buffer offset. -/
def headerLoop : List (List Nat) → List (String × String) → Nat →
    Except ParseOutcome (List (String × String) × Nat)
  | [], headers, buffRead => .ok (headers, buffRead)
  | line :: rest, headers, buffRead =>
    if line = [13] then .ok (headers, buffRead)
    else
      match splitFirst 58 line with
      | (_, Option.none) => .error (.panicked "called Option::unwrap on a None value")
      | (nameB, some valueB) =>
        let value := String.mk (trimChars (fromUtf8Lossy valueB))
        let name := String.mk (trimChars (fromUtf8Lossy nameB))
        headerLoop rest (insertAssoc headers name value) (buffRead + (line.length + 1))

/-- Intermediate state of Request::try_from after the request line, the
query string and the header loop have been processed. -/
structure HeadState where
  method : Method
  path : String
  query : List (String × String)
  headers : List (String × String)
  buffRead : Nat

/-- Model of Request::try_from up to (and including) the header loop:
reject a buffer whose first byte is zero as an Err, split the buffer
into lines on the line-feed byte, split the request line on spaces into
a method token (todo! panic when unrecognized) and a URI token (unwrap
panic when absent), split the URI on the first question mark into the
trimmed path and the optional query string, and run the header loop on
the remaining lines. -/
def Request.parseHead (buf : List Nat) : Except ParseOutcome HeadState :=
  match buf with
  | [] => .error (.panicked "index out of bounds: the len is 0 but the index is 0")
  | b0 :: _ =>
    if b0 = 0 then .error (.err "Empty request")
    else
      match splitOnElem 10 buf with
      | [] => .error (.panicked "unreachable: slice split is never empty")
      | requestLine :: restLines =>
        let buffRead := 2 + (requestLine.length + 1)
        match splitOnElem 32 requestLine with
        | [] => .error (.panicked "unreachable: slice split is never empty")
        | methTok :: restToks =>
          match Method.fromString (strOfBytes methTok) with
          | Option.none => .error (.panicked "not yet implemented")
          | some method =>
            match restToks.head? with
            | Option.none => .error (.panicked "called Option::unwrap on a None value")
            | some uriTok =>
              let uriChars := fromUtf8Lossy uriTok
              let (pathPart, queryPart) := splitFirst '?' uriChars
              let path := String.mk (trimChars pathPart)
              let queryRes : Except ParseOutcome (List (String × String)) :=
                match queryPart with
                | Option.none => .ok []
                | some q => parseQuery q
              match queryRes with
              | .error o => .error o
              | .ok query =>
                match headerLoop restLines [] buffRead with
                | .error o => .error o
                | .ok (headers, buffRead2) =>
                  .ok ⟨method, path, query, headers, buffRead2⟩

/-- Model of the body stage of Request::try_from: when a Content-Length
header is present its value is parsed as usize (unwrap panic on
failure) and that many bytes starting at the running buffer offset are
sliced out of the buffer (panic when the range leaves the buffer),
decoded lossily, trimmed and handed to Body::parse; with no
Content-Length the body stays None. -/
def Request.bodyStage (buf : List Nat) (headers : List (String × String)) (buffRead : Nat) :
    Except ParseOutcome Body :=
  match List.lookup "Content-Length" headers with
  | Option.none => .ok .none
  | some cl =>
    match parseUsize cl with
    | Option.none => .error (.panicked "called Result::unwrap on an Err value: ParseIntError")
    | some n =>
      if buffRead + n ≤ buf.length then
        Body.parse (String.mk (trimChars (fromUtf8Lossy ((buf.drop buffRead).take n))))
          (List.lookup "Content-Type" headers)
      else .error (.panicked "range end index out of range for slice")

/-- Model of the TryFrom<&[u8; 1024]> impl for Request from
src/src/http/request.rs, composed from the head and body stages. -/
def Request.tryFrom (buf : List Nat) : ParseOutcome :=
  match Request.parseHead buf with
  | .error o => o
  | .ok st =>
    match Request.bodyStage buf st.headers st.buffRead with
    | .error o => o
    | .ok body => .ok ⟨st.method, st.path, st.query, st.headers, body⟩

/-- HTTP status code from src/src/http/response.rs. -/
inductive StatusCode where
  | ok : StatusCode
  | notFound : StatusCode
  | badRequest : StatusCode
  | methodNotAllowed : StatusCode
  deriving DecidableEq

/-- Display impl for StatusCode: the fixed status-line text. -/
def StatusCode.toString : StatusCode → String
  | .ok => "200 OK"
  | .notFound => "404 Not Found"
  | .badRequest => "400 Bad Request"
  | .methodNotAllowed => "405 Method Not Allowed"

/-- HTTP response from src/src/http/response.rs. -/
structure Response where
  status_code : StatusCode
  headers : List (String × String)
  body : Body

/-- Model of Response::ok(): 200, no headers, no body. -/
def Response.ok : Response := ⟨.ok, [], .none⟩

/-- Model of Response::status: set the status code. -/
def Response.status (r : Response) (code : StatusCode) : Response :=
  { r with status_code := code }

/-- Model of Response::header: insert a header, overwriting any
existing binding of the name. -/
def Response.header (r : Response) (name value : String) : Response :=
  { r with headers := insertAssoc r.headers name value }

/-- Model of Response::body (named withBody here because body is the
field name): set the body. -/
def Response.withBody (r : Response) (b : Body) : Response :=
  { r with body := b }

/-- Model of Response::text: 200 with a text/plain content type and a
text body. -/
def Response.text (s : String) : Response :=
  (Response.ok.header "Content-Type" "text/plain").withBody (.text s)

/-- Model of Response::json: 200 with an application/json content type
and a JSON body. -/
def Response.json (v : Json) : Response :=
  (Response.ok.header "Content-Type" "application/json").withBody (.json v)

/-- Model of Response::not_found. -/
def Response.not_found : Response :=
  (Response.text "Not Found").status .notFound

/-- Model of Response::invalid_request. -/
def Response.invalid_request : Response :=
  (Response.text "Invalid Request").status .badRequest

/-- Lexicographic comparison of character lists by code point,
modelling the Ord instance Rust String sorting uses. -/
def charsLe : List Char → List Char → Bool
  | [], _ => true
  | _ :: _, [] => false
  | a :: as, b :: bs =>
    if a.toNat < b.toNat then true
    else if a.toNat = b.toNat then charsLe as bs
    else false

/-- Lexicographic order on strings (Rust Ord for String). -/
def strLe (a b : String) : Bool := charsLe a.data b.data

/-- Model of Response::method_not_allowed: render the method names,
sort them lexicographically (Vec::sort, modelled by the extensionally
equal stable insertion sort) and join them with a comma and space into
the Allow header. -/
def Response.method_not_allowed (methods : List Method) : Response :=
  let names := List.insertionSort (fun a b => strLe a b = true) (methods.map Method.toString)
  ((Response.text "Method Not Allowed").status .methodNotAllowed).header
    "Allow" (String.intercalate ", " names)

/-- Escape one character of a JSON string for serialization. -/
def jsonEscapeChar (c : Char) : String :=
  if c = '"' then "\\\""
  else if c = '\\' then "\\\\"
  else if c = '\n' then "\\n"
  else if c = '\r' then "\\r"
  else if c = '\t' then "\\t"
  else if c = Char.ofNat 8 then "\\b"
  else if c = Char.ofNat 12 then "\\f"
  else if c.toNat < 0x20 then
    "\\u00" ++ String.mk [(Nat.digitChar (c.toNat / 16)), (Nat.digitChar (c.toNat % 16))]
  else String.mk [c]

/-- Serialize a JSON string literal. -/
def jsonRenderString (s : String) : String :=
  "\"" ++ String.join (s.data.map jsonEscapeChar) ++ "\""

mutual

/-- Model of the Display impl for serde_json::Value (compact form). -/
def Json.render : Json → String
  | .null => "null"
  | .bool true => "true"
  | .bool false => "false"
  | .num lexeme => lexeme
  | .str s => jsonRenderString s
  | .arr xs => "[" ++ String.intercalate "," (Json.renderList xs) ++ "]"
  | .obj fs => "\x7b" ++ String.intercalate "," (Json.renderFields fs) ++ "\x7d"

/-- Serialized forms of the elements of a JSON array. -/
def Json.renderList : List Json → List String
  | [] => []
  | x :: xs => Json.render x :: Json.renderList xs

/-- Serialized forms of the members of a JSON object. -/
def Json.renderFields : List (String × Json) → List String
  | [] => []
  | (k, v) :: fs => (jsonRenderString k ++ ":" ++ Json.render v) :: Json.renderFields fs

end

/-- Display impl for Body: nothing for None, the text for Text, the
serialized document for Json. -/
def Body.render : Body → String
  | .none => ""
  | .text s => s
  | .json v => Json.render v

/-- CRLF line terminator used by the HTTP serializers. -/
def CRLF : String := "\r\n"

/-- Model of the ToString impl for Response: status line, one line per
header in map order, a blank line, then the body. -/
def Response.toString (r : Response) : String :=
  "HTTP/1.1 " ++ r.status_code.toString ++ CRLF ++
    String.join (r.headers.map (fun p => p.1 ++ ": " ++ p.2 ++ CRLF)) ++
    CRLF ++ r.body.render

/-- Route key from src/src/router.rs: a path and a method vector. -/
structure Route where
  path : String
  methods : List Method
  deriving DecidableEq

/-- Router from src/src/router.rs: the route table, modelled as an
association list with HashMap insert-replace semantics. -/
structure Router where
  routes : List (Route × (Request → Response))

/-- Model of Router::new. -/
def Router.new : Router := ⟨[]⟩

/-- HashMap::insert on the route table: replace the handler when the
key (path and method vector) is already present, append otherwise. -/
def insertRoute (routes : List (Route × (Request → Response))) (key : Route)
    (handler : Request → Response) : List (Route × (Request → Response)) :=
  if routes.any (fun p => p.1 = key) then
    routes.map (fun p => if p.1 = key then (key, handler) else p)
  else routes ++ [(key, handler)]

/-- Model of Router::match (match is reserved in Lean, hence
matchRoute): insert a route keyed by path and method vector. -/
def Router.matchRoute (r : Router) (methods : List Method) (path : String)
    (handler : Request → Response) : Router :=
  ⟨insertRoute r.routes ⟨path, methods⟩ handler⟩

/-- Model of Router::get. -/
def Router.get (r : Router) (path : String) (handler : Request → Response) : Router :=
  r.matchRoute [.get] path handler

/-- Model of Router::post. -/
def Router.post (r : Router) (path : String) (handler : Request → Response) : Router :=
  r.matchRoute [.post] path handler

/-- Model of Router::put. -/
def Router.put (r : Router) (path : String) (handler : Request → Response) : Router :=
  r.matchRoute [.put] path handler

/-- Model of Router::delete. -/
def Router.delete (r : Router) (path : String) (handler : Request → Response) : Router :=
  r.matchRoute [.delete] path handler

/-- Model of Router::handle: keep the routes whose path equals the
request path exactly; none means 404; otherwise the first route whose
method vector contains the request method handles the request, and if
there is no such route the flattened method vectors of all the matching
routes populate a 405 response. -/
def Router.handle (r : Router) (request : Request) : Response :=
  let pathRoutes := r.routes.filter (fun p => p.1.path = request.path)
  if pathRoutes.length = 0 then Response.not_found
  else
    match pathRoutes.find? (fun p => p.1.methods.contains request.method) with
    | some p => p.2 request
    | Option.none =>
      Response.method_not_allowed (pathRoutes.flatMap (fun p => p.1.methods))

/-- ASCII bytes of a string. -/
def strBytes (s : String) : List Nat := s.data.map Char.toNat

/-- A 1024-byte read buffer holding the given text, zero-filled to the
right, as handed to Request::try_from by the connection loop. -/
def mkBuf (s : String) : List Nat :=
  strBytes s ++ List.replicate (1024 - (strBytes s).length) 0

/-- Splitting on an element never produces the empty piece list. -/
theorem splitOnElem_ne_nil {α : Type} [DecidableEq α] (c : α) (l : List α) :
    splitOnElem c l ≠ [] := by
  induction l with
  | nil => simp [splitOnElem]
  | cons x xs ih =>
    simp only [splitOnElem]
    cases h : splitOnElem c xs with
    | nil => exact absurd h ih
    | cons y ys => by_cases hxc : x = c <;> simp [hxc]

/-- Splitting a list that starts with a separator-free prefix followed
by a separator peels off exactly that prefix. -/
theorem splitOnElem_append_cons {α : Type} [DecidableEq α] (c : α) (xs ys : List α)
    (h : c ∉ xs) : splitOnElem c (xs ++ c :: ys) = xs :: splitOnElem c ys := by
  induction xs with
  | nil =>
    simp only [List.nil_append, splitOnElem]
    cases hz : splitOnElem c ys with
    | nil => exact absurd hz (splitOnElem_ne_nil c ys)
    | cons z zs => simp
  | cons x xs ih =>
    have hx : ¬x = c := fun hc => h (by simp [hc])
    have h' : c ∉ xs := fun hm => h (List.mem_cons_of_mem x hm)
    simp only [List.cons_append, splitOnElem, List.append_eq]
    rw [ih h']
    simp [hx]

/-- Looking up a key right after inserting it yields the inserted
value, whether the insert replaced or appended. -/
theorem lookup_insertAssoc_self {β : Type} (m : List (String × β)) (k : String) (v : β) :
    List.lookup k (insertAssoc m k v) = some v := by
  induction m with
  | nil => simp [insertAssoc, List.lookup]
  | cons p rest ih =>
    obtain ⟨p1, p2⟩ := p
    by_cases hp : p1 = k
    · subst hp
      simp [insertAssoc, List.lookup]
    · have hbk : (k == p1) = false := by
        rw [beq_eq_false_iff_ne]
        exact fun hh => hp hh.symm
      by_cases hr : rest.any (fun q => q.1 = k)
      · have ih' := ih
        rw [insertAssoc, if_pos hr] at ih'
        simp [insertAssoc, List.lookup, hp, hr, ih', hbk]
      · have ih' := ih
        rw [insertAssoc, if_neg hr] at ih'
        simp [insertAssoc, List.lookup, hp, hr, ih', hbk]

/-- Read buffer holding a request line with the unrecognized method
token PATCH. -/
def patchBuf : List Nat := mkBuf "PATCH / HTTP/1.1\r\n\r\n"

/-- C1: parsing a 1024-byte buffer whose request-line method token is
not one of HEAD, GET, POST, PUT, DELETE does not produce a fallible
UnknownMethod-class Err result: the From<String> impl for Method hits
todo!() and the process panics. This theorem evaluates the model at the
failing input, showing the outcome is the todo!() panic and in
particular not an Err result. -/
theorem c1_unknown_method_panics :
    Request.tryFrom patchBuf = ParseOutcome.panicked "not yet implemented" ∧
    ∀ msg, Request.tryFrom patchBuf ≠ ParseOutcome.err msg := by
  refine ⟨rfl, fun msg h => ?_⟩
  rw [(rfl : Request.tryFrom patchBuf = ParseOutcome.panicked "not yet implemented")] at h
  exact ParseOutcome.noConfusion h

/-- Read buffer holding a POST with Content-Type application/json,
Content-Length 5 and a body that is not well-formed JSON. -/
def badJsonBuf : List Nat :=
  mkBuf "POST /j HTTP/1.1\r\nContent-Length: 5\r\nContent-Type: application/json\r\n\r\n#####"

/-- C2: a declared application/json body that fails to parse does not
surface as a recoverable MalformedJsonBody-class failure leading to a
400 response: Body::parse unwraps the serde_json result and panics.
This theorem evaluates the model at the failing input, showing the
outcome is the unwrap panic and in particular not an Err result. -/
theorem c2_malformed_json_panics :
    Request.tryFrom badJsonBuf =
      ParseOutcome.panicked "called Result::unwrap on an Err value: serde_json error" ∧
    ∀ msg, Request.tryFrom badJsonBuf ≠ ParseOutcome.err msg := by
  refine ⟨rfl, fun msg h => ?_⟩
  rw [(rfl : Request.tryFrom badJsonBuf =
      ParseOutcome.panicked "called Result::unwrap on an Err value: serde_json error")] at h
  exact ParseOutcome.noConfusion h

/-- Read buffer for the C7 example request. -/
def getQueryBuf : List Nat := mkBuf "GET /a?x=1&y=2 HTTP/1.1\r\nHost: h\r\n\r\n"

/-- C7: parsing the example buffer succeeds with path /a, query x=1 and
y=2, header Host=h, and Body::None because no Content-Length header is
present. -/
theorem c7_example_request_parses :
    Request.tryFrom getQueryBuf =
      ParseOutcome.ok ⟨.get, "/a", [("x", "1"), ("y", "2")], [("Host", "h")], .none⟩ := rfl

/-- C8: Response::text("Hello, World!") serializes to exactly the
status line, the single Content-Type header, a blank line and the body,
with CRLF endings. -/
theorem c8_text_serialization :
    (Response.text "Hello, World!").toString =
      "HTTP/1.1 200 OK\r\nContent-Type: text/plain\r\n\r\nHello, World!" := rfl

/-- C3: when no registered route has a path string-equal to the request
path (in particular for an empty router), dispatch returns the 404
response with body Not Found. -/
theorem c3_no_path_match_not_found (router : Router) (request : Request)
    (h : ∀ rt ∈ router.routes, rt.1.path ≠ request.path) :
    (router.handle request).status_code = StatusCode.notFound ∧
    (router.handle request).body = Body.text "Not Found" := by
  have hf : router.routes.filter (fun p => p.1.path = request.path) = [] := by
    simp only [List.filter_eq_nil_iff, decide_eq_true_eq]
    exact h
  have hh : router.handle request = Response.not_found := by
    simp [Router.handle, hf]
  rw [hh]
  exact ⟨rfl, rfl⟩

/-- Witness for C3: the empty router sends a GET for the root path to
the 404 response. -/
theorem c3_witness :
    (Router.new.handle ⟨.get, "/", [], [], .none⟩).status_code = StatusCode.notFound ∧
    (Router.new.handle ⟨.get, "/", [], [], .none⟩).body = Body.text "Not Found" :=
  c3_no_path_match_not_found Router.new ⟨.get, "/", [], [], .none⟩ (by simp [Router.new])

/-- Router with a GET route and a PUT route both on /test/path. -/
def getPutRouter : Router :=
  (Router.new.get "/test/path" (fun _ => Response.text "test response")).put
    "/test/path" (fun _ => Response.text "test response")

/-- POST request for /test/path. -/
def postTestPathRequest : Request := ⟨.post, "/test/path", [], [], .none⟩

/-- C4: a POST to a path carrying separate GET and PUT routes yields
status 405, an Allow header of GET, PUT, and the Method Not Allowed
text body. -/
theorem c4_get_put_post_is_405 :
    (getPutRouter.handle postTestPathRequest).status_code = StatusCode.methodNotAllowed ∧
    List.lookup "Allow" (getPutRouter.handle postTestPathRequest).headers =
      some "GET, PUT" ∧
    (getPutRouter.handle postTestPathRequest).body = Body.text "Method Not Allowed" :=
  ⟨rfl, rfl, rfl⟩

/-- Router holding two routes on /p whose method vectors overlap: one
registered for GET and POST, one for GET alone. -/
def overlapRouter : Router :=
  (Router.new.matchRoute [.get, .post] "/p" (fun _ => Response.text "a")).matchRoute
    [.get] "/p" (fun _ => Response.text "b")

/-- DELETE request for /p. -/
def deletePRequest : Request := ⟨.delete, "/p", [], [], .none⟩

/-- Counterexample for C5: with overlapping method vectors on the same
path the 405 Allow header keeps duplicates — it reads GET, GET, POST
rather than the deduplicated GET, POST the claim requires. -/
theorem c5_counterexample :
    List.lookup "Allow" (overlapRouter.handle deletePRequest).headers =
      some "GET, GET, POST" ∧
    List.lookup "Allow" (overlapRouter.handle deletePRequest).headers ≠
      some "GET, POST" := by
  refine ⟨rfl, fun h => ?_⟩
  rw [(rfl : List.lookup "Allow" (overlapRouter.handle deletePRequest).headers =
      some "GET, GET, POST")] at h
  exact absurd (Option.some.inj h) (by decide)

/-- Totality of the lexicographic comparison. -/
theorem charsLe_total : ∀ as bs : List Char, charsLe as bs = true ∨ charsLe bs as = true := by
  intro as
  induction as with
  | nil => intro bs; left; rfl
  | cons a as ih =>
    intro bs
    cases bs with
    | nil => right; rfl
    | cons b bs =>
      by_cases h1 : a.toNat < b.toNat
      · left; simp [charsLe, h1]
      · by_cases h2 : a.toNat = b.toNat
        · rcases ih bs with h | h
          · left; simp [charsLe, h1, h2, h]
          · right
            have hba : ¬b.toNat < a.toNat := by omega
            have heq : b.toNat = a.toNat := h2.symm
            simp [charsLe, hba, heq, h]
        · right
          have h3 : b.toNat < a.toNat := by omega
          simp [charsLe, h3]

/-- Transitivity of the lexicographic comparison. -/
theorem charsLe_trans : ∀ as bs cs : List Char, charsLe as bs = true →
    charsLe bs cs = true → charsLe as cs = true := by
  intro as
  induction as with
  | nil => intros; rfl
  | cons a as ih =>
    intro bs cs hab hbc
    cases bs with
    | nil => simp [charsLe] at hab
    | cons b bs =>
      cases cs with
      | nil => simp [charsLe] at hbc
      | cons c cs =>
        by_cases h1 : a.toNat < b.toNat
        · by_cases h2 : b.toNat < c.toNat
          · have hac : a.toNat < c.toNat := lt_trans h1 h2
            simp [charsLe, hac]
          · by_cases h3 : b.toNat = c.toNat
            · have hac : a.toNat < c.toNat := by omega
              simp [charsLe, hac]
            · simp [charsLe, h2, h3] at hbc
        · by_cases h1' : a.toNat = b.toNat
          · have hrec1 : charsLe as bs = true := by simpa [charsLe, h1, h1'] using hab
            by_cases h2 : b.toNat < c.toNat
            · have hac : a.toNat < c.toNat := by omega
              simp [charsLe, hac]
            · by_cases h3 : b.toNat = c.toNat
              · have hrec2 : charsLe bs cs = true := by simpa [charsLe, h2, h3] using hbc
                have hac1 : ¬a.toNat < c.toNat := by omega
                have hac2 : a.toNat = c.toNat := by omega
                simp [charsLe, hac1, hac2, ih bs cs hrec1 hrec2]
              · simp [charsLe, h2, h3] at hbc
          · simp [charsLe, h1, h1'] at hab

/-- C5 as amended: when some route matches the path but none matches
the method, the response is a 405 whose Allow header joins, with a
comma and space, a lexicographically sorted permutation of the
concatenation (duplicates retained) of the method names of every route
matching the path. -/
theorem c5_allow_sorted_concat_with_duplicates (router : Router) (request : Request)
    (hsome : ∃ rt ∈ router.routes, rt.1.path = request.path)
    (hnone : ∀ rt ∈ router.routes, rt.1.path = request.path →
      request.method ∉ rt.1.methods) :
    (router.handle request).status_code = StatusCode.methodNotAllowed ∧
    ∃ names : List String,
      List.Perm names
        (((router.routes.filter (fun p => p.1.path = request.path)).flatMap
          (fun p => p.1.methods)).map Method.toString) ∧
      names.Sorted (fun a b => strLe a b = true) ∧
      List.lookup "Allow" (router.handle request).headers =
        some (String.intercalate ", " names) := by
  haveI htot : IsTotal String (fun a b => strLe a b = true) :=
    ⟨fun a b => charsLe_total a.data b.data⟩
  haveI htrans : IsTrans String (fun a b => strLe a b = true) :=
    ⟨fun a b c => charsLe_trans a.data b.data c.data⟩
  have hne : ¬(router.routes.filter (fun p => p.1.path = request.path)).length = 0 := by
    obtain ⟨rt, hmem, hpath⟩ := hsome
    have hin : rt ∈ router.routes.filter (fun p => p.1.path = request.path) :=
      List.mem_filter.mpr ⟨hmem, by simp [hpath]⟩
    intro h0
    rw [List.length_eq_zero] at h0
    simp [h0] at hin
  have hfind : (router.routes.filter (fun p => p.1.path = request.path)).find?
      (fun p => p.1.methods.contains request.method) = none := by
    rw [List.find?_eq_none]
    intro p hp
    have hmem := List.mem_filter.mp hp
    have hnm := hnone p hmem.1 (by simpa using hmem.2)
    simpa using hnm
  have hhandle : router.handle request = Response.method_not_allowed
      ((router.routes.filter (fun p => p.1.path = request.path)).flatMap
        (fun p => p.1.methods)) := by
    simp only [Router.handle]
    rw [if_neg hne, hfind]
  refine ⟨by rw [hhandle]; rfl, List.insertionSort (fun a b => strLe a b = true)
    ((((router.routes.filter (fun p => p.1.path = request.path)).flatMap
      (fun p => p.1.methods)).map Method.toString)), ?_, ?_, ?_⟩
  · exact List.perm_insertionSort _ _
  · exact List.sorted_insertionSort _ _
  · rw [hhandle]
    exact lookup_insertAssoc_self [("Content-Type", "text/plain")] "Allow" _

/-- Witness for the amended C5: on the router with overlapping method
vectors, a DELETE to /p gets a 405 whose Allow header is a sorted
permutation (duplicates kept) of the matching routes' method names. -/
theorem c5_amended_witness :
    (overlapRouter.handle deletePRequest).status_code = StatusCode.methodNotAllowed ∧
    ∃ names : List String,
      List.Perm names
        (((overlapRouter.routes.filter (fun p => p.1.path = deletePRequest.path)).flatMap
          (fun p => p.1.methods)).map Method.toString) ∧
      names.Sorted (fun a b => strLe a b = true) ∧
      List.lookup "Allow" (overlapRouter.handle deletePRequest).headers =
        some (String.intercalate ", " names) := by
  have hs : ∃ rt ∈ overlapRouter.routes, rt.1.path = deletePRequest.path := by
    refine ⟨(⟨"/p", [Method.get, Method.post]⟩, fun _ => Response.text "a"), ?_, rfl⟩
    exact List.mem_cons_self _ _
  have hn : ∀ rt ∈ overlapRouter.routes, rt.1.path = deletePRequest.path →
      deletePRequest.method ∉ rt.1.methods := by
    intro rt hmem hpath
    rcases List.mem_cons.mp hmem with hrt | hmem2
    · rw [hrt]; decide
    · rcases List.mem_cons.mp hmem2 with hrt | hnil
      · rw [hrt]; decide
      · exact absurd hnil (List.not_mem_nil rt)
  exact c5_allow_sorted_concat_with_duplicates overlapRouter deletePRequest hs hn

/-- Read buffer whose query pair carries two equals signs. -/
def multiEqBuf : List Nat := mkBuf "GET /a?k=v1=v2 HTTP/1.1\r\n\r\n"

/-- Counterexample for C6: for the query string k=v1=v2, the query
mapping binds k to v1 (the segment between the first and second equals
sign), not to the entire remainder v1=v2 the claim requires. -/
theorem c6_counterexample :
    Request.tryFrom multiEqBuf =
      ParseOutcome.ok ⟨.get, "/a", [("k", "v1")], [], .none⟩ ∧
    ("v1" : String) ≠ "v1=v2" := ⟨rfl, by decide⟩

/-- C6 as amended: a query pair is split on every equals sign, the
trimmed first segment is the key and the trimmed second segment is the
value (text after a second equals sign is discarded), and when the same
key is inserted again the mapping keeps the last value. -/
theorem c6_pair_splits_at_every_equals (k v1 v2 : List Char)
    (hk : '=' ∉ k) (h1 : '=' ∉ v1) :
    pairToKV (k ++ '=' :: (v1 ++ '=' :: v2)) =
      .ok (String.mk (trimChars k), String.mk (trimChars v1)) ∧
    ∀ (m : List (String × String)) (key val : String),
      List.lookup key (insertAssoc m key val) = some val := by
  refine ⟨?_, fun m key val => lookup_insertAssoc_self m key val⟩
  rw [pairToKV, splitOnElem_append_cons '=' k _ hk, splitOnElem_append_cons '=' v1 v2 h1]
  rfl

/-- Witness for the amended C6: the pair k=v1=v2 parses to key k with
value v1, and reinserting a key keeps the last value. -/
theorem c6_amended_witness :
    (pairToKV (['k'] ++ '=' :: (['v', '1'] ++ '=' :: ['v', '2'])) =
      .ok (String.mk (trimChars ['k']), String.mk (trimChars ['v', '1'])) ∧
    ∀ (m : List (String × String)) (key val : String),
      List.lookup key (insertAssoc m key val) = some val) :=
  c6_pair_splits_at_every_equals ['k'] ['v', '1'] ['v', '2'] (by decide) (by decide)

/-- C9: registering the same path and method twice through the same
registration call leaves exactly one route keyed by that pair, bound to
the second handler, and dispatching a request with that path and method
invokes the second handler. -/
theorem c9_duplicate_registration_last_wins (p : String) (m : Method)
    (h1 h2 : Request → Response) (request : Request)
    (hpath : request.path = p) (hmethod : request.method = m) :
    ((Router.new.matchRoute [m] p h1).matchRoute [m] p h2).routes =
      [(⟨p, [m]⟩, h2)] ∧
    ((Router.new.matchRoute [m] p h1).matchRoute [m] p h2).handle request =
      h2 request := by
  subst hpath
  subst hmethod
  have hroutes : ((Router.new.matchRoute [request.method] request.path h1).matchRoute
      [request.method] request.path h2).routes =
      [(⟨request.path, [request.method]⟩, h2)] := by
    simp [Router.new, Router.matchRoute, insertRoute]
  refine ⟨hroutes, ?_⟩
  simp [Router.handle, hroutes, List.filter, List.find?]

/-- Witness for C9: registering two GET handlers on /x and dispatching
a GET /x runs the second handler. -/
theorem c9_witness :
    ((Router.new.matchRoute [.get] "/x" (fun _ => Response.text "one")).matchRoute
      [.get] "/x" (fun _ => Response.text "two")).routes =
      [(⟨"/x", [.get]⟩, fun _ => Response.text "two")] ∧
    ((Router.new.matchRoute [.get] "/x" (fun _ => Response.text "one")).matchRoute
      [.get] "/x" (fun _ => Response.text "two")).handle ⟨.get, "/x", [], [], .none⟩ =
      Response.text "two" :=
  c9_duplicate_registration_last_wins "/x" .get (fun _ => Response.text "one")
    (fun _ => Response.text "two") ⟨.get, "/x", [], [], .none⟩ rfl rfl

/-- C10: whenever the head stage of the parser succeeds and leaves a
Content-Length header whose value either does not parse as usize or
announces a body extending past the 1024-byte buffer, Request::try_from
panics rather than returning an Err result. -/
theorem c10_bad_content_length_panics (buf : List Nat) (st : HeadState) (cl : String)
    (hlen : buf.length = 1024)
    (hhead : Request.parseHead buf = .ok st)
    (hcl : List.lookup "Content-Length" st.headers = some cl)
    (hbad : match parseUsize cl with
      | Option.none => True
      | some n => 1024 < st.buffRead + n) :
    ∃ msg, Request.tryFrom buf = ParseOutcome.panicked msg := by
  simp only [Request.tryFrom, hhead, Request.bodyStage, hcl]
  cases hp : parseUsize cl with
  | none => exact ⟨_, rfl⟩
  | some n =>
    rw [hp] at hbad
    have hnofit : ¬(st.buffRead + n ≤ buf.length) := by
      rw [hlen]
      omega
    simp only [hnofit, if_false]
    exact ⟨_, rfl⟩

/-- Read buffer announcing a 9999-byte body that cannot fit in the
1024-byte buffer. -/
def overrunBuf : List Nat := mkBuf "GET / HTTP/1.1\r\nContent-Length: 9999\r\n\r\n"

/-- Witness for C10: the buffer announcing Content-Length 9999 drives
Request::try_from into the slice panic. -/
theorem c10_witness :
    ∃ msg, Request.tryFrom overrunBuf = ParseOutcome.panicked msg :=
  c10_bad_content_length_panics overrunBuf
    ⟨.get, "/", [], [("Content-Length", "9999")], 40⟩ "9999" rfl rfl rfl
    (show (1024 : Nat) < 40 + 9999 by decide)
